import Mathlib

/-!
Shallow embedding of the reconciliation engine of the im-reconciliation-tool
repository (src/parsers/reconciliation_engine.py).

Modelling conventions:
- a Python dict is an association list `List (String × α)`; assignment `d[k] = v`
  replaces the value in place when the key is present and appends otherwise,
  matching CPython insertion-order semantics (`dictInsert`);
- a Python set of strings is a duplicate-free `List String` built in insertion
  order (`setAdd`, `setUnion`, `setDiff`); CPython leaves set iteration order
  unspecified, so only order-independent facts about these lists reflect
  guarantees of the source, while `list(someSet)` is modelled as the identity
  on the underlying list;
- `trade.get(key)` returning a missing/empty value is modelled by the empty
  string, since the engine only ever tests these values for truthiness;
- the items of transform-failure and ORE-error files are opaque to the engine
  (it only concatenates and counts them), so they are modelled as strings;
- `datetime.now().isoformat()` is an input: `reconcile_all` takes the
  timestamp as an explicit argument;
- the mutable engine object is a `Store` value threaded explicitly;
  `add_file_data` and `reconcile_all` return the updated `Store`.
-/

/-- One row of a trade extract.  The engine reads only `TradeID`; the other
columns are carried opaquely. -/
structure Trade where
  tradeID : String
  notional : String
  currency : String
  counterparty : String
deriving DecidableEq

/-- One row of an acknowledgment file: `{TradeID, Status}`. -/
structure Ack where
  tradeID : String
  status : String
deriving DecidableEq

/-- The parsed-file dictionary handed to `add_file_data` and stored in the
engine: `file_type`, `file_path`, an optional `error` key (`hasError`), and
the payload fields the engine later reads with `.get(..., [])`. -/
structure ParsedData where
  file_type : String
  file_path : String
  hasError : Bool
  trades : List Trade
  acknowledgments : List Ack
  errors : List String
  ore_errors : List String
deriving DecidableEq

/-- Summary block of a reconciliation result. -/
structure Summary where
  total_trades_sent : Nat
  total_acknowledgments : Nat
  total_nacknowledgments : Nat
  missing_acknowledgments : Nat
  transform_errors : Nat
  ore_errors : Nat
  reconciliation_status : String
deriving DecidableEq

/-- One entry of the `discrepancies` list of a result. -/
structure Discrepancy where
  type : String
  trade_ids : List String
  count : Nat
deriving DecidableEq

/-- One entry of the `errors` list of a result. -/
structure ErrorGroup where
  type : String
  errors : List String
  count : Nat
deriving DecidableEq

/-- The dictionary returned by `reconcile_all`. -/
structure ReconResult where
  timestamp : String
  trade_files : List String
  ack_files : List String
  error_files : List String
  summary : Summary
  discrepancies : List Discrepancy
  errors : List ErrorGroup
deriving DecidableEq

/-- A Python dict keyed by strings, as an insertion-ordered association list. -/
abbrev Dict (α : Type) := List (String × α)

/-- Python dict assignment `d[k] = v`: replace in place when `k` is present,
append otherwise. -/
def dictInsert {α : Type} (d : Dict α) (k : String) (v : α) : Dict α :=
  if d.any (fun q => q.1 = k) then
    d.map (fun q => if q.1 = k then (k, v) else q)
  else
    d ++ [(k, v)]

/-- The mutable state of a `ReconciliationEngine` instance. -/
structure Store where
  trade_data : Dict ParsedData
  ack_data : Dict ParsedData
  error_data : Dict ParsedData
  reconciliation_history : List ReconResult
deriving DecidableEq

/-- The freshly constructed engine: all dicts and the history empty. -/
def emptyStore : Store :=
  { trade_data := [], ack_data := [], error_data := [], reconciliation_history := [] }

/-- Embeds `ReconciliationEngine.add_file_data`: drop records carrying an `error`
key, otherwise route by `file_type` into the matching dict keyed by
`file_path`; unrecognized kinds are ignored. -/
def add_file_data (s : Store) (p : ParsedData) : Store :=
  if p.hasError then s
  else if p.file_type = "trade_extract" then
    { s with trade_data := dictInsert s.trade_data p.file_path p }
  else if p.file_type = "acknowledgment" then
    { s with ack_data := dictInsert s.ack_data p.file_path p }
  else if p.file_type = "transform_failure" ∨ p.file_type = "ore_error" then
    { s with error_data := dictInsert s.error_data p.file_path p }
  else s

/-- Python `set.add`: append when not yet present. -/
def setAdd (s : List String) (x : String) : List String :=
  if x ∈ s then s else s ++ [x]

/-- Python `set.update` and set union `s | t`. -/
def setUnion (s t : List String) : List String :=
  t.foldl setAdd s

/-- Python set difference `s - t`. -/
def setDiff (s t : List String) : List String :=
  s.filter (fun x => x ∉ t)

/-- Per trade-extract record: `{trade.get TradeID for trade in trades if trade.get TradeID}`. -/
def fileTradeIds (p : ParsedData) : List String :=
  p.trades.foldl (fun acc t => if t.tradeID ≠ "" then setAdd acc t.tradeID else acc) []

/-- The `all_trade_ids` set of `reconcile_all`: union of the per-file
trade-ID sets over every trade extract in the store. -/
def all_trade_ids (td : Dict ParsedData) : List String :=
  td.foldl (fun acc q => setUnion acc (fileTradeIds q.2)) []

/-- The `total_trades_sent` accumulator of `reconcile_all`:
`total_trades_sent += len(trades)` over every trade extract. -/
def total_trades_sent (td : Dict ParsedData) : Nat :=
  td.foldl (fun n q => n + q.2.trades.length) 0

/-- The `total_acks` accumulator: the number of acknowledgment entries whose
`Status` is the string ACK, summed over every acknowledgment file. -/
def total_acks (ad : Dict ParsedData) : Nat :=
  ad.foldl (fun n q => n + (q.2.acknowledgments.filter (fun a => a.status = "ACK")).length) 0

/-- The `total_nacks` accumulator: likewise for `Status` NACK. -/
def total_nacks (ad : Dict ParsedData) : Nat :=
  ad.foldl (fun n q => n + (q.2.acknowledgments.filter (fun a => a.status = "NACK")).length) 0

/-- The body of the per-acknowledgment loop of `reconcile_all`, acting on the
pair (acknowledged_trades, nacked_trades). -/
def ackStep (st : List String × List String) (a : Ack) : List String × List String :=
  if a.tradeID ≠ "" then
    if a.status = "ACK" then (setAdd st.1 a.tradeID, st.2)
    else if a.status = "NACK" then (st.1, setAdd st.2 a.tradeID)
    else st
  else st

/-- The (acknowledged_trades, nacked_trades) pair of sets accumulated over
every acknowledgment entry of every acknowledgment file. -/
def ack_nack_sets (ad : Dict ParsedData) : List String × List String :=
  ad.foldl (fun st q => q.2.acknowledgments.foldl ackStep st) ([], [])

/-- The `acknowledged_trades` set. -/
def acknowledged_trades (ad : Dict ParsedData) : List String :=
  (ack_nack_sets ad).1

/-- The `nacked_trades` set. -/
def nacked_trades (ad : Dict ParsedData) : List String :=
  (ack_nack_sets ad).2

/-- The set `missing_acks = all_trade_ids - acknowledged_trades - nacked_trades`. -/
def missing_acks (s : Store) : List String :=
  setDiff (setDiff (all_trade_ids s.trade_data) (acknowledged_trades s.ack_data))
    (nacked_trades s.ack_data)

/-- The set `unexpected_acks = (acknowledged_trades | nacked_trades) - all_trade_ids`. -/
def unexpected_acks (s : Store) : List String :=
  setDiff (setUnion (acknowledged_trades s.ack_data) (nacked_trades s.ack_data))
    (all_trade_ids s.trade_data)

/-- The error-aggregation loop of `reconcile_all`: one pass over the error
dict extending (transform_errors, ore_errors) according to the stored
own `file_type` of the stored record. -/
def error_lists (ed : Dict ParsedData) : List String × List String :=
  ed.foldl
    (fun te q =>
      if q.2.file_type = "transform_failure" then (te.1 ++ q.2.errors, te.2)
      else if q.2.file_type = "ore_error" then (te.1, te.2 ++ q.2.ore_errors)
      else te)
    ([], [])

/-- The aggregated `transform_errors` list. -/
def transform_errors (ed : Dict ParsedData) : List String :=
  (error_lists ed).1

/-- The aggregated `ore_errors` list. -/
def ore_errors (ed : Dict ParsedData) : List String :=
  (error_lists ed).2

/-- Embeds `ReconciliationEngine._get_reconciliation_status`.  The `acks` and
`nacks` arguments are accepted and ignored exactly as in the source. -/
def get_reconciliation_status (trades_sent acks nacks missingAcks transformErrors
    oreErrors : Nat) : String :=
  if trades_sent = 0 then ("NO_TRADES")
  else if missingAcks = 0 ∧ transformErrors = 0 ∧ oreErrors = 0 then ("FULLY_RECONCILED")
  else if missingAcks > 0 then ("MISSING_ACKNOWLEDGMENTS")
  else if transformErrors > 0 then ("TRANSFORM_ERRORS")
  else if oreErrors > 0 then ("ORE_ERRORS")
  else ("PARTIALLY_RECONCILED")

/-- The reconciliation_results dictionary assembled by `reconcile_all` from
the current contents of the store and the timestamp. -/
def reconcile_report (s : Store) (ts : String) : ReconResult :=
  let tts := total_trades_sent s.trade_data
  let ta := total_acks s.ack_data
  let tn := total_nacks s.ack_data
  let miss := missing_acks s
  let unexp := unexpected_acks s
  let te := transform_errors s.error_data
  let oe := ore_errors s.error_data
  { timestamp := ts
    trade_files := s.trade_data.map Prod.fst
    ack_files := s.ack_data.map Prod.fst
    error_files := s.error_data.map Prod.fst
    summary :=
      { total_trades_sent := tts
        total_acknowledgments := ta
        total_nacknowledgments := tn
        missing_acknowledgments := miss.length
        transform_errors := te.length
        ore_errors := oe.length
        reconciliation_status :=
          get_reconciliation_status tts ta tn miss.length te.length oe.length }
    discrepancies :=
      (if miss ≠ [] then [{ type := "missing_acknowledgments", trade_ids := miss, count := miss.length }] else []) ++
      (if unexp ≠ [] then [{ type := "unexpected_acknowledgments", trade_ids := unexp, count := unexp.length }] else [])
    errors :=
      (if te ≠ [] then [{ type := "transform_failures", errors := te, count := te.length }] else []) ++
      (if oe ≠ [] then [{ type := "ore_errors", errors := oe, count := oe.length }] else []) }

/-- Embeds `ReconciliationEngine.reconcile_all`: build the result, append it to
`reconciliation_history`, and return it together with the updated store. -/
def reconcile_all (s : Store) (ts : String) : ReconResult × Store :=
  let r := reconcile_report s ts
  (r, { s with reconciliation_history := s.reconciliation_history ++ [r] })

/-! Concrete record builders used by the witness and counterexample stores. -/

/-- A trade row with the given identifier and opaque remaining columns. -/
def mkTrade (i : String) : Trade :=
  { tradeID := i, notional := "1", currency := "USD", counterparty := "CP" }

/-- A parse-error-free trade-extract record. -/
def mkTradeRec (path : String) (ids : List String) : ParsedData :=
  { file_type := "trade_extract", file_path := path, hasError := false,
    trades := ids.map mkTrade, acknowledgments := [], errors := [], ore_errors := [] }

/-- A parse-error-free acknowledgment record. -/
def mkAckRec (path : String) (acks : List Ack) : ParsedData :=
  { file_type := "acknowledgment", file_path := path, hasError := false,
    trades := [], acknowledgments := acks, errors := [], ore_errors := [] }

/-- A fixed timestamp for concrete runs. -/
def ts0 : String := "2025-01-01T00:00:00"

/-! Spec-side vocabulary: the raw-data predicates and rule lists the claims
speak about, written from the words of the specification. -/

/-- A TradeID counted into the trade universe by the spec: a non-empty
TradeID of some trade row of some trade-extract source in the store. -/
def SentTradeId (s : Store) (x : String) : Prop :=
  x ≠ "" ∧ ∃ q ∈ s.trade_data, ∃ t ∈ q.2.trades, t.tradeID = x

/-- A TradeID in the ACK set of the spec: carried with status ACK by some
acknowledgment entry of some acknowledgment source. -/
def AckedId (s : Store) (x : String) : Prop :=
  x ≠ "" ∧ ∃ q ∈ s.ack_data, ∃ a ∈ q.2.acknowledgments, a.tradeID = x ∧ a.status = "ACK"

/-- A TradeID in the NACK set of the spec. -/
def NackedId (s : Store) (x : String) : Prop :=
  x ≠ "" ∧ ∃ q ∈ s.ack_data, ∃ a ∈ q.2.acknowledgments, a.tradeID = x ∧ a.status = "NACK"

/-- The four record kinds the spec recognizes. -/
def recognizedKinds : List String :=
  ["trade_extract", "acknowledgment", "transform_failure", "ore_error"]

/-- Modelled from the ordered status-rule list of the spec (first matching rule
wins); the empty string marks the case in which no rule matches, which the
status theorem proves unreachable. -/
def claim_status (trades_sent missingAcks transformErrors oreErrors : Nat) : String :=
  if trades_sent = 0 then ("NO_TRADES")
  else if missingAcks = 0 ∧ transformErrors = 0 ∧ oreErrors = 0 then ("FULLY_RECONCILED")
  else if missingAcks > 0 then ("MISSING_ACKNOWLEDGMENTS")
  else if transformErrors > 0 then ("TRANSFORM_ERRORS")
  else if oreErrors > 0 then ("ORE_ERRORS")
  else ("")

/-- Erase the only field the idempotence claim excludes from comparison. -/
def erase_timestamp (r : ReconResult) : ReconResult :=
  { r with timestamp := "" }

/-- Append one extra acknowledgment entry to the acknowledgment record stored
under key `k` (leaving the store untouched when `k` is absent). -/
def append_ack (s : Store) (k : String) (a : Ack) : Store :=
  { s with
      ack_data := s.ack_data.map (fun q =>
        if q.1 = k then (q.1, { q.2 with acknowledgments := q.2.acknowledgments ++ [a] }) else q) }

/-! Membership and duplicate-freeness lemmas for the Python-set model. -/

lemma mem_setAdd {s : List String} {x y : String} :
    y ∈ setAdd s x ↔ y ∈ s ∨ y = x := by
  unfold setAdd
  by_cases h : x ∈ s
  · simp only [if_pos h]
    constructor
    · exact fun hy => Or.inl hy
    · rintro (hy | rfl)
      · exact hy
      · exact h
  · simp [if_neg h]

lemma mem_setUnion {s t : List String} {x : String} :
    x ∈ setUnion s t ↔ x ∈ s ∨ x ∈ t := by
  induction t generalizing s with
  | nil => simp [setUnion]
  | cons a t ih =>
      unfold setUnion at ih ⊢
      rw [List.foldl_cons, ih, mem_setAdd]
      simp only [List.mem_cons]
      tauto

lemma mem_setDiff {s t : List String} {x : String} :
    x ∈ setDiff s t ↔ x ∈ s ∧ x ∉ t := by
  simp [setDiff]

lemma nodup_setAdd {s : List String} {x : String} (h : s.Nodup) :
    (setAdd s x).Nodup := by
  unfold setAdd
  by_cases hx : x ∈ s
  · simpa [if_pos hx]
  · simpa [if_neg hx] using List.Nodup.append h (List.nodup_singleton x) (by simpa using hx)

lemma nodup_setUnion {s t : List String} (h : s.Nodup) :
    (setUnion s t).Nodup := by
  induction t generalizing s with
  | nil => simpa [setUnion]
  | cons a t ih =>
      unfold setUnion at ih ⊢
      rw [List.foldl_cons]
      exact ih (nodup_setAdd h)

lemma nodup_setDiff {s t : List String} (h : s.Nodup) :
    (setDiff s t).Nodup :=
  List.Nodup.filter _ h

/-! Characterizations of the fold-built sets and counters of the engine. -/

lemma mem_foldTradeIds (l : List Trade) (acc : List String) (x : String) :
    x ∈ l.foldl (fun acc t => if t.tradeID ≠ "" then setAdd acc t.tradeID else acc) acc ↔
      x ∈ acc ∨ ∃ t ∈ l, t.tradeID = x ∧ x ≠ "" := by
  induction l generalizing acc with
  | nil => simp
  | cons t l ih =>
      rw [List.foldl_cons, ih]
      by_cases ht : t.tradeID ≠ ""
      · rw [if_pos ht, mem_setAdd]
        simp only [List.mem_cons]
        constructor
        · rintro ((hx | rfl) | ⟨u, hu, hux, hxe⟩)
          · exact Or.inl hx
          · exact Or.inr ⟨t, Or.inl rfl, rfl, ht⟩
          · exact Or.inr ⟨u, Or.inr hu, hux, hxe⟩
        · rintro (hx | ⟨u, (rfl | hu), hux, hxe⟩)
          · exact Or.inl (Or.inl hx)
          · exact Or.inl (Or.inr hux.symm)
          · exact Or.inr ⟨u, hu, hux, hxe⟩
      · rw [if_neg ht]
        push_neg at ht
        simp only [List.mem_cons]
        constructor
        · rintro (hx | ⟨u, hu, hux, hxe⟩)
          · exact Or.inl hx
          · exact Or.inr ⟨u, Or.inr hu, hux, hxe⟩
        · rintro (hx | ⟨u, (rfl | hu), hux, hxe⟩)
          · exact Or.inl hx
          · exact absurd (hux ▸ ht) hxe
          · exact Or.inr ⟨u, hu, hux, hxe⟩

lemma mem_fileTradeIds (p : ParsedData) (x : String) :
    x ∈ fileTradeIds p ↔ ∃ t ∈ p.trades, t.tradeID = x ∧ x ≠ "" := by
  rw [fileTradeIds, mem_foldTradeIds]
  simp

lemma mem_all_trade_ids_fold (td : Dict ParsedData) (acc : List String) (x : String) :
    x ∈ td.foldl (fun acc q => setUnion acc (fileTradeIds q.2)) acc ↔
      x ∈ acc ∨ ∃ q ∈ td, ∃ t ∈ q.2.trades, t.tradeID = x ∧ x ≠ "" := by
  induction td generalizing acc with
  | nil => simp
  | cons q td ih =>
      rw [List.foldl_cons, ih, mem_setUnion, mem_fileTradeIds]
      simp only [List.mem_cons]
      constructor
      · rintro ((hx | hq) | ⟨r, hr, ht⟩)
        · exact Or.inl hx
        · exact Or.inr ⟨q, Or.inl rfl, hq⟩
        · exact Or.inr ⟨r, Or.inr hr, ht⟩
      · rintro (hx | ⟨r, (rfl | hr), ht⟩)
        · exact Or.inl (Or.inl hx)
        · exact Or.inl (Or.inr ht)
        · exact Or.inr ⟨r, hr, ht⟩

lemma mem_all_trade_ids (td : Dict ParsedData) (x : String) :
    x ∈ all_trade_ids td ↔ ∃ q ∈ td, ∃ t ∈ q.2.trades, t.tradeID = x ∧ x ≠ "" := by
  rw [all_trade_ids, mem_all_trade_ids_fold]
  simp

lemma nodup_all_trade_ids_fold (td : Dict ParsedData) (acc : List String)
    (h : acc.Nodup) :
    (td.foldl (fun acc q => setUnion acc (fileTradeIds q.2)) acc).Nodup := by
  induction td generalizing acc with
  | nil => simpa
  | cons q td ih => exact ih _ (nodup_setUnion h)

lemma nodup_all_trade_ids (td : Dict ParsedData) : (all_trade_ids td).Nodup :=
  nodup_all_trade_ids_fold td [] List.nodup_nil

lemma mem_ackStep_fst (st : List String × List String) (a : Ack) (x : String) :
    x ∈ (ackStep st a).1 ↔ x ∈ st.1 ∨ (a.tradeID = x ∧ x ≠ "" ∧ a.status = "ACK") := by
  unfold ackStep
  by_cases hid : a.tradeID ≠ ""
  · rw [if_pos hid]
    by_cases hs : a.status = "ACK"
    · rw [if_pos hs]
      simp only [mem_setAdd]
      constructor
      · rintro (hx | rfl)
        · exact Or.inl hx
        · exact Or.inr ⟨rfl, hid, hs⟩
      · rintro (hx | ⟨rfl, _, _⟩)
        · exact Or.inl hx
        · exact Or.inr rfl
    · rw [if_neg hs]
      by_cases hn : a.status = "NACK" <;> simp [hn, hs]
  · rw [if_neg hid]
    push_neg at hid
    constructor
    · exact fun hx => Or.inl hx
    · rintro (hx | ⟨rfl, hxe, _⟩)
      · exact hx
      · exact absurd hid hxe

lemma mem_ackStep_snd (st : List String × List String) (a : Ack) (x : String) :
    x ∈ (ackStep st a).2 ↔ x ∈ st.2 ∨ (a.tradeID = x ∧ x ≠ "" ∧ a.status = "NACK") := by
  unfold ackStep
  by_cases hid : a.tradeID ≠ ""
  · rw [if_pos hid]
    by_cases hs : a.status = "ACK"
    · rw [if_pos hs]
      have : a.status ≠ "NACK" := by rw [hs]; decide
      simp only []
      constructor
      · exact fun hx => Or.inl hx
      · rintro (hx | ⟨rfl, _, hn⟩)
        · exact hx
        · exact absurd hn this
    · rw [if_neg hs]
      by_cases hn : a.status = "NACK"
      · rw [if_pos hn]
        simp only [mem_setAdd]
        constructor
        · rintro (hx | rfl)
          · exact Or.inl hx
          · exact Or.inr ⟨rfl, hid, hn⟩
        · rintro (hx | ⟨rfl, _, _⟩)
          · exact Or.inl hx
          · exact Or.inr rfl
      · simp [hn, hs]
  · rw [if_neg hid]
    push_neg at hid
    constructor
    · exact fun hx => Or.inl hx
    · rintro (hx | ⟨rfl, hxe, _⟩)
      · exact hx
      · exact absurd hid hxe

lemma mem_foldAck_fst (l : List Ack) (st : List String × List String) (x : String) :
    x ∈ (l.foldl ackStep st).1 ↔
      x ∈ st.1 ∨ ∃ a ∈ l, a.tradeID = x ∧ x ≠ "" ∧ a.status = "ACK" := by
  induction l generalizing st with
  | nil => simp
  | cons a l ih =>
      rw [List.foldl_cons, ih, mem_ackStep_fst]
      simp only [List.mem_cons]
      constructor
      · rintro ((hx | ha) | ⟨b, hb, hbx⟩)
        · exact Or.inl hx
        · exact Or.inr ⟨a, Or.inl rfl, ha⟩
        · exact Or.inr ⟨b, Or.inr hb, hbx⟩
      · rintro (hx | ⟨b, (rfl | hb), hbx⟩)
        · exact Or.inl (Or.inl hx)
        · exact Or.inl (Or.inr hbx)
        · exact Or.inr ⟨b, hb, hbx⟩

lemma mem_foldAck_snd (l : List Ack) (st : List String × List String) (x : String) :
    x ∈ (l.foldl ackStep st).2 ↔
      x ∈ st.2 ∨ ∃ a ∈ l, a.tradeID = x ∧ x ≠ "" ∧ a.status = "NACK" := by
  induction l generalizing st with
  | nil => simp
  | cons a l ih =>
      rw [List.foldl_cons, ih, mem_ackStep_snd]
      simp only [List.mem_cons]
      constructor
      · rintro ((hx | ha) | ⟨b, hb, hbx⟩)
        · exact Or.inl hx
        · exact Or.inr ⟨a, Or.inl rfl, ha⟩
        · exact Or.inr ⟨b, Or.inr hb, hbx⟩
      · rintro (hx | ⟨b, (rfl | hb), hbx⟩)
        · exact Or.inl (Or.inl hx)
        · exact Or.inl (Or.inr hbx)
        · exact Or.inr ⟨b, hb, hbx⟩

lemma mem_ack_nack_fold_fst (ad : Dict ParsedData) (st : List String × List String)
    (x : String) :
    x ∈ (ad.foldl (fun st q => q.2.acknowledgments.foldl ackStep st) st).1 ↔
      x ∈ st.1 ∨ ∃ q ∈ ad, ∃ a ∈ q.2.acknowledgments, a.tradeID = x ∧ x ≠ "" ∧ a.status = "ACK" := by
  induction ad generalizing st with
  | nil => simp
  | cons q ad ih =>
      rw [List.foldl_cons, ih, mem_foldAck_fst]
      simp only [List.mem_cons]
      constructor
      · rintro ((hx | ha) | ⟨r, hr, hrx⟩)
        · exact Or.inl hx
        · exact Or.inr ⟨q, Or.inl rfl, ha⟩
        · exact Or.inr ⟨r, Or.inr hr, hrx⟩
      · rintro (hx | ⟨r, (rfl | hr), hrx⟩)
        · exact Or.inl (Or.inl hx)
        · exact Or.inl (Or.inr hrx)
        · exact Or.inr ⟨r, hr, hrx⟩

lemma mem_ack_nack_fold_snd (ad : Dict ParsedData) (st : List String × List String)
    (x : String) :
    x ∈ (ad.foldl (fun st q => q.2.acknowledgments.foldl ackStep st) st).2 ↔
      x ∈ st.2 ∨ ∃ q ∈ ad, ∃ a ∈ q.2.acknowledgments, a.tradeID = x ∧ x ≠ "" ∧ a.status = "NACK" := by
  induction ad generalizing st with
  | nil => simp
  | cons q ad ih =>
      rw [List.foldl_cons, ih, mem_foldAck_snd]
      simp only [List.mem_cons]
      constructor
      · rintro ((hx | ha) | ⟨r, hr, hrx⟩)
        · exact Or.inl hx
        · exact Or.inr ⟨q, Or.inl rfl, ha⟩
        · exact Or.inr ⟨r, Or.inr hr, hrx⟩
      · rintro (hx | ⟨r, (rfl | hr), hrx⟩)
        · exact Or.inl (Or.inl hx)
        · exact Or.inl (Or.inr hrx)
        · exact Or.inr ⟨r, hr, hrx⟩

lemma mem_acknowledged_trades (ad : Dict ParsedData) (x : String) :
    x ∈ acknowledged_trades ad ↔
      ∃ q ∈ ad, ∃ a ∈ q.2.acknowledgments, a.tradeID = x ∧ x ≠ "" ∧ a.status = "ACK" := by
  rw [acknowledged_trades, ack_nack_sets, mem_ack_nack_fold_fst]
  simp

lemma mem_nacked_trades (ad : Dict ParsedData) (x : String) :
    x ∈ nacked_trades ad ↔
      ∃ q ∈ ad, ∃ a ∈ q.2.acknowledgments, a.tradeID = x ∧ x ≠ "" ∧ a.status = "NACK" := by
  rw [nacked_trades, ack_nack_sets, mem_ack_nack_fold_snd]
  simp

lemma nodup_ackStep (st : List String × List String) (a : Ack)
    (h1 : st.1.Nodup) (h2 : st.2.Nodup) :
    (ackStep st a).1.Nodup ∧ (ackStep st a).2.Nodup := by
  unfold ackStep
  by_cases hid : a.tradeID ≠ ""
  · rw [if_pos hid]
    by_cases hs : a.status = "ACK"
    · rw [if_pos hs]
      exact ⟨nodup_setAdd h1, h2⟩
    · rw [if_neg hs]
      by_cases hn : a.status = "NACK"
      · rw [if_pos hn]
        exact ⟨h1, nodup_setAdd h2⟩
      · rw [if_neg hn]
        exact ⟨h1, h2⟩
  · rw [if_neg hid]
    exact ⟨h1, h2⟩

lemma nodup_foldAck (l : List Ack) (st : List String × List String)
    (h1 : st.1.Nodup) (h2 : st.2.Nodup) :
    (l.foldl ackStep st).1.Nodup ∧ (l.foldl ackStep st).2.Nodup := by
  induction l generalizing st with
  | nil => exact ⟨h1, h2⟩
  | cons a l ih =>
      rw [List.foldl_cons]
      obtain ⟨g1, g2⟩ := nodup_ackStep st a h1 h2
      exact ih _ g1 g2

lemma nodup_ack_nack_fold (ad : Dict ParsedData) (st : List String × List String)
    (h1 : st.1.Nodup) (h2 : st.2.Nodup) :
    (ad.foldl (fun st q => q.2.acknowledgments.foldl ackStep st) st).1.Nodup ∧
      (ad.foldl (fun st q => q.2.acknowledgments.foldl ackStep st) st).2.Nodup := by
  induction ad generalizing st with
  | nil => exact ⟨h1, h2⟩
  | cons q ad ih =>
      rw [List.foldl_cons]
      obtain ⟨g1, g2⟩ := nodup_foldAck q.2.acknowledgments st h1 h2
      exact ih _ g1 g2

lemma nodup_acknowledged_trades (ad : Dict ParsedData) :
    (acknowledged_trades ad).Nodup :=
  (nodup_ack_nack_fold ad ([], []) List.nodup_nil List.nodup_nil).1

lemma nodup_nacked_trades (ad : Dict ParsedData) :
    (nacked_trades ad).Nodup :=
  (nodup_ack_nack_fold ad ([], []) List.nodup_nil List.nodup_nil).2

lemma nodup_missing_acks (s : Store) : (missing_acks s).Nodup :=
  nodup_setDiff (nodup_setDiff (nodup_all_trade_ids s.trade_data))

lemma nodup_unexpected_acks (s : Store) : (unexpected_acks s).Nodup :=
  nodup_setDiff (nodup_setUnion (nodup_acknowledged_trades s.ack_data))

/-! Counter characterizations: the running += folds equal sums over the dict. -/

lemma foldl_add_eq {α : Type} (f : α → Nat) (l : List α) (i : Nat) :
    l.foldl (fun n q => n + f q) i = i + (l.map f).sum := by
  induction l generalizing i with
  | nil => simp
  | cons q l ih =>
      rw [List.foldl_cons, ih]
      simp [Nat.add_assoc]

lemma total_trades_sent_eq (td : Dict ParsedData) :
    total_trades_sent td = (td.map (fun q => q.2.trades.length)).sum := by
  rw [total_trades_sent, foldl_add_eq]
  simp

lemma total_acks_eq (ad : Dict ParsedData) :
    total_acks ad =
      (ad.map (fun q => (q.2.acknowledgments.filter (fun a => a.status = "ACK")).length)).sum := by
  rw [total_acks, foldl_add_eq]
  simp

lemma total_nacks_eq (ad : Dict ParsedData) :
    total_nacks ad =
      (ad.map (fun q => (q.2.acknowledgments.filter (fun a => a.status = "NACK")).length)).sum := by
  rw [total_nacks, foldl_add_eq]
  simp

/-! Python-dict assignment lemmas. -/

lemma any_key_map {α : Type} (d : Dict α) (k : String) (v : α) :
    ((d.map (fun q => if q.1 = k then (k, v) else q)).any (fun q => q.1 = k)) =
      d.any (fun q => q.1 = k) := by
  induction d with
  | nil => rfl
  | cons q d ih =>
      by_cases hq : q.1 = k
      · simp [hq]
      · simp [hq, ih]

lemma map_key_map {α : Type} (d : Dict α) (k : String) (v1 v2 : α) :
    (d.map (fun q => if q.1 = k then (k, v1) else q)).map
        (fun q => if q.1 = k then (k, v2) else q) =
      d.map (fun q => if q.1 = k then (k, v2) else q) := by
  induction d with
  | nil => rfl
  | cons q d ih =>
      by_cases hq : q.1 = k
      · simp [hq, ih]
      · simp [hq, ih]

lemma map_key_id {α : Type} (d : Dict α) (k : String) (v : α)
    (h : d.any (fun q => q.1 = k) = false) :
    d.map (fun q => if q.1 = k then (k, v) else q) = d := by
  induction d with
  | nil => rfl
  | cons q d ih =>
      simp only [List.any_cons, Bool.or_eq_false_iff] at h
      obtain ⟨hq, hd⟩ := h
      have hq2 : ¬ q.1 = k := by simpa using hq
      simp [hq2, ih hd]

lemma dictInsert_dictInsert {α : Type} (d : Dict α) (k : String) (v1 v2 : α) :
    dictInsert (dictInsert d k v1) k v2 = dictInsert d k v2 := by
  by_cases h : d.any (fun q => q.1 = k) = true
  · have h1 : dictInsert d k v1 = d.map (fun q => if q.1 = k then (k, v1) else q) := by
      rw [dictInsert, if_pos h]
    have h2 : dictInsert d k v2 = d.map (fun q => if q.1 = k then (k, v2) else q) := by
      rw [dictInsert, if_pos h]
    have hany :
        ((d.map (fun q => if q.1 = k then (k, v1) else q)).any (fun q => q.1 = k)) = true := by
      rw [any_key_map]
      exact h
    rw [h1, dictInsert, if_pos hany, map_key_map, h2]
  · have hf : d.any (fun q => q.1 = k) = false := Bool.eq_false_iff.mpr h
    have h1 : dictInsert d k v1 = d ++ [(k, v1)] := by simp [dictInsert, hf]
    have h2 : dictInsert d k v2 = d ++ [(k, v2)] := by simp [dictInsert, hf]
    have hany : ((d ++ [(k, v1)]).any (fun q => q.1 = k)) = true := by simp
    rw [h1, dictInsert, if_pos hany, List.map_append, map_key_id d k v2 hf, h2]
    simp

/-- The status the engine computes is always one of the five reachable
classification strings; the PARTIALLY_RECONCILED default is unreachable. -/
lemma get_reconciliation_status_mem (t a n m tr o : Nat) :
    get_reconciliation_status t a n m tr o ∈
      (["NO_TRADES", "FULLY_RECONCILED", "MISSING_ACKNOWLEDGMENTS", "TRANSFORM_ERRORS",
        "ORE_ERRORS"] : List String) := by
  unfold get_reconciliation_status
  split_ifs <;> simp_all <;> omega

/-- The discrepancies field of the report, written out. -/
lemma discrepancies_eq (s : Store) (ts : String) :
    (reconcile_all s ts).1.discrepancies =
      (if missing_acks s ≠ [] then
        [{ type := "missing_acknowledgments", trade_ids := missing_acks s,
           count := (missing_acks s).length }] else []) ++
      (if unexpected_acks s ≠ [] then
        [{ type := "unexpected_acknowledgments", trade_ids := unexpected_acks s,
           count := (unexpected_acks s).length }] else []) := rfl

/-- The status field of the report, written out. -/
lemma status_eq (s : Store) (ts : String) :
    (reconcile_all s ts).1.summary.reconciliation_status =
      get_reconciliation_status (total_trades_sent s.trade_data) (total_acks s.ack_data)
        (total_nacks s.ack_data) (missing_acks s).length
        (transform_errors s.error_data).length (ore_errors s.error_data).length := rfl

/-- C2: for every combination of counts, `_get_reconciliation_status` returns
the first matching rule of the ordered list NO_TRADES, FULLY_RECONCILED,
MISSING_ACKNOWLEDGMENTS, TRANSFORM_ERRORS, ORE_ERRORS (`claim_status` is that
rule list, with an unreachable fall-through); in particular, with trades sent,
zero missing acks, two transform errors and zero ORE errors it returns
TRANSFORM_ERRORS. -/
theorem status_follows_ordered_rules (t a n m tr o : Nat) :
    get_reconciliation_status t a n m tr o = claim_status t m tr o ∧
    get_reconciliation_status (t + 1) a n 0 2 0 = "TRANSFORM_ERRORS" := by
  constructor
  · unfold get_reconciliation_status claim_status
    split_ifs <;> first | rfl | omega | simp_all
  · unfold get_reconciliation_status
    split_ifs <;> first | rfl | omega | simp_all

/-- C3: `reconcile_all` is total over every Store (it is a total function and
always yields one of the five defined statuses), and on the empty Store it
returns the NO_TRADES report with all counts zero and empty discrepancy and
error lists. -/
theorem reconcile_total_and_empty_store (s : Store) (ts : String) :
    (reconcile_all emptyStore ts).1 =
      { timestamp := ts
        trade_files := []
        ack_files := []
        error_files := []
        summary :=
          { total_trades_sent := 0
            total_acknowledgments := 0
            total_nacknowledgments := 0
            missing_acknowledgments := 0
            transform_errors := 0
            ore_errors := 0
            reconciliation_status := "NO_TRADES" }
        discrepancies := []
        errors := [] } ∧
    (reconcile_all s ts).1.summary.reconciliation_status ∈
      (["NO_TRADES", "FULLY_RECONCILED", "MISSING_ACKNOWLEDGMENTS", "TRANSFORM_ERRORS",
        "ORE_ERRORS"] : List String) := by
  constructor
  · rfl
  · rw [status_eq]
    exact get_reconciliation_status_mem _ _ _ _ _ _

/-- C7: two back-to-back reconciliations with no intervening put yield
reports that agree on every field except the timestamp. -/
theorem reconcile_idempotent_mod_timestamp (s : Store) (ts1 ts2 : String) :
    erase_timestamp (reconcile_all (reconcile_all s ts1).2 ts2).1 =
      erase_timestamp (reconcile_all s ts1).1 := rfl

/-- C9 counterexample: as written the claim is false — on the empty store,
`reconcile_all` itself changes `reconciliation_history` (it appends the
report it returns), so History is not left unchanged for the caller. -/
theorem reconcile_leaves_history_cex :
    (reconcile_all emptyStore ts0).2.reconciliation_history ≠
      emptyStore.reconciliation_history := by decide

/-- C9 amended: `reconcile_all` assembles the report, itself appends it to
History, and returns it; the three data mappings are untouched. -/
theorem reconcile_appends_report_to_history (s : Store) (ts : String) :
    (reconcile_all s ts).2.reconciliation_history =
      s.reconciliation_history ++ [(reconcile_all s ts).1] ∧
    (reconcile_all s ts).2.trade_data = s.trade_data ∧
    (reconcile_all s ts).2.ack_data = s.ack_data ∧
    (reconcile_all s ts).2.error_data = s.error_data :=
  ⟨rfl, rfl, rfl, rfl⟩

/-- A store holding one trade extract whose rows arrive in the order T2, T1
and no acknowledgments: both IDs end up missing. -/
def c8Store : Store := add_file_data emptyStore (mkTradeRec ("trades.csv") ["T2", "T1"])

/-- C8 counterexample: the emitted trade_ids list is `list(pythonSet)` with
no sort applied, so it need not be sorted — on `c8Store` the missing-ack
entry carries the IDs in construction order T2, T1, which is not sorted. -/
theorem discrepancy_ids_not_sorted_cex :
    (reconcile_all c8Store ts0).1.discrepancies =
      [{ type := "missing_acknowledgments", trade_ids := ["T2", "T1"], count := 2 }] ∧
    ¬ List.Sorted (fun a b => a ≤ b) (["T2", "T1"] : List String) := by
  constructor
  · rfl
  · intro hs
    rw [List.sorted_cons] at hs
    have h := hs.1 ("T1") (by simp)
    rw [String.le_iff_toList_le] at h
    exact absurd h (by decide)

/-- C8 amended: every discrepancy entry the report emits carries a
duplicate-free, non-empty trade_ids list that is exactly the corresponding
discrepancy set (in unspecified order, not necessarily sorted), its type
string, and a count equal to the length of that list. -/
theorem discrepancy_entry_shape (s : Store) (ts : String) (d : Discrepancy)
    (hd : d ∈ (reconcile_all s ts).1.discrepancies) :
    d.count = d.trade_ids.length ∧ d.trade_ids.Nodup ∧ d.trade_ids ≠ [] ∧
      ((d.type = "missing_acknowledgments" ∧ d.trade_ids = missing_acks s) ∨
        (d.type = "unexpected_acknowledgments" ∧ d.trade_ids = unexpected_acks s)) := by
  rw [discrepancies_eq] at hd
  rcases List.mem_append.mp hd with h | h
  · by_cases hm : missing_acks s = []
    · rw [if_neg (by simpa using hm)] at h
      exact absurd h (List.not_mem_nil d)
    · rw [if_pos hm] at h
      rcases List.mem_singleton.mp h with rfl
      exact ⟨rfl, nodup_missing_acks s, hm, Or.inl ⟨rfl, rfl⟩⟩
  · by_cases hu : unexpected_acks s = []
    · rw [if_neg (by simpa using hu)] at h
      exact absurd h (List.not_mem_nil d)
    · rw [if_pos hu] at h
      rcases List.mem_singleton.mp h with rfl
      exact ⟨rfl, nodup_unexpected_acks s, hu, Or.inr ⟨rfl, rfl⟩⟩

/-- The discrepancy entry `c8Store` produces. -/
def c8Entry : Discrepancy :=
  { type := "missing_acknowledgments", trade_ids := ["T2", "T1"], count := 2 }

/-- C8 witness: the amended entry-shape theorem applied to the concrete
missing-acknowledgments entry of `c8Store`. -/
theorem discrepancy_entry_shape_witness :
    c8Entry.count = c8Entry.trade_ids.length ∧ c8Entry.trade_ids.Nodup ∧
      c8Entry.trade_ids ≠ [] ∧
      ((c8Entry.type = "missing_acknowledgments" ∧ c8Entry.trade_ids = missing_acks c8Store) ∨
        (c8Entry.type = "unexpected_acknowledgments" ∧
          c8Entry.trade_ids = unexpected_acks c8Store)) :=
  discrepancy_entry_shape c8Store ts0 c8Entry (by decide)

/-- C1: the missing set is exactly the trade universe minus the ACK and NACK
sets, the unexpected set is exactly the union of the ACK and NACK sets minus
the trade universe, and each appears as a discrepancy entry in the report
exactly when non-empty. -/
theorem reconcile_discrepancy_set_algebra (s : Store) (ts : String) :
    (∀ x, x ∈ missing_acks s ↔ SentTradeId s x ∧ ¬ AckedId s x ∧ ¬ NackedId s x) ∧
    (∀ x, x ∈ unexpected_acks s ↔ (AckedId s x ∨ NackedId s x) ∧ ¬ SentTradeId s x) ∧
    ((∃ d ∈ (reconcile_all s ts).1.discrepancies,
        d.type = "missing_acknowledgments" ∧ d.trade_ids = missing_acks s) ↔
      missing_acks s ≠ []) ∧
    ((∃ d ∈ (reconcile_all s ts).1.discrepancies,
        d.type = "unexpected_acknowledgments" ∧ d.trade_ids = unexpected_acks s) ↔
      unexpected_acks s ≠ []) := by
  have hsent : ∀ x, x ∈ all_trade_ids s.trade_data ↔ SentTradeId s x := by
    intro x
    rw [mem_all_trade_ids]
    unfold SentTradeId
    constructor
    · rintro ⟨q, hq, t, ht, htx, hxe⟩
      exact ⟨hxe, q, hq, t, ht, htx⟩
    · rintro ⟨hxe, q, hq, t, ht, htx⟩
      exact ⟨q, hq, t, ht, htx, hxe⟩
  have hack : ∀ x, x ∈ acknowledged_trades s.ack_data ↔ AckedId s x := by
    intro x
    rw [mem_acknowledged_trades]
    unfold AckedId
    constructor
    · rintro ⟨q, hq, a, ha, hax, hxe, has⟩
      exact ⟨hxe, q, hq, a, ha, hax, has⟩
    · rintro ⟨hxe, q, hq, a, ha, hax, has⟩
      exact ⟨q, hq, a, ha, hax, hxe, has⟩
  have hnack : ∀ x, x ∈ nacked_trades s.ack_data ↔ NackedId s x := by
    intro x
    rw [mem_nacked_trades]
    unfold NackedId
    constructor
    · rintro ⟨q, hq, a, ha, hax, hxe, has⟩
      exact ⟨hxe, q, hq, a, ha, hax, has⟩
    · rintro ⟨hxe, q, hq, a, ha, hax, has⟩
      exact ⟨q, hq, a, ha, hax, hxe, has⟩
  refine ⟨?_, ?_, ?_, ?_⟩
  · intro x
    rw [missing_acks, mem_setDiff, mem_setDiff, hsent, hack, hnack]
    tauto
  · intro x
    rw [unexpected_acks, mem_setDiff, mem_setUnion, hsent, hack, hnack]
  · constructor
    · rintro ⟨d, hd, htype, -⟩
      intro hm
      rw [discrepancies_eq] at hd
      have hm2 : ¬ (missing_acks s ≠ []) := fun hc => hc hm
      rw [if_neg hm2, List.nil_append] at hd
      by_cases hu : unexpected_acks s = []
      · have hu2 : ¬ (unexpected_acks s ≠ []) := fun hc => hc hu
        rw [if_neg hu2] at hd
        exact List.not_mem_nil d hd
      · rw [if_pos hu] at hd
        rcases List.mem_singleton.mp hd with rfl
        simp at htype
    · intro hm
      refine ⟨{ type := "missing_acknowledgments", trade_ids := missing_acks s,
                count := (missing_acks s).length }, ?_, rfl, rfl⟩
      rw [discrepancies_eq, if_pos hm]
      exact List.mem_append_left _ (List.mem_singleton_self _)
  · constructor
    · rintro ⟨d, hd, htype, -⟩
      intro hu
      rw [discrepancies_eq] at hd
      have hu2 : ¬ (unexpected_acks s ≠ []) := fun hc => hc hu
      rw [if_neg hu2, List.append_nil] at hd
      by_cases hm : missing_acks s = []
      · have hm2 : ¬ (missing_acks s ≠ []) := fun hc => hc hm
        rw [if_neg hm2] at hd
        exact List.not_mem_nil d hd
      · rw [if_pos hm] at hd
        rcases List.mem_singleton.mp hd with rfl
        simp at htype
    · intro hu
      refine ⟨{ type := "unexpected_acknowledgments", trade_ids := unexpected_acks s,
                count := (unexpected_acks s).length }, ?_, rfl, rfl⟩
      rw [discrepancies_eq, if_pos hu]
      exact List.mem_append_right _ (List.mem_singleton_self _)

/-- A store in which the same trade is acknowledged twice: the ACK count and
the ACK set size differ. -/
def c4DupStore : Store :=
  add_file_data emptyStore
    (mkAckRec ("acks.csv") [{ tradeID := "T1", status := "ACK" }, { tradeID := "T1", status := "ACK" }])

/-- C4: total_trades_sent sums the per-source trade-record counts (duplicates
across sources count twice), the trade universe is the duplicate-free set of
non-empty TradeIDs across the trade extracts, and total_acknowledgments and
total_nacknowledgments count acknowledgment entries with Status ACK and NACK
respectively, not set sizes — on `c4DupStore` the ACK count is 2 while the
ACK set has one element. -/
theorem totals_count_records_not_sets (s : Store) (ts : String) :
    (reconcile_all s ts).1.summary.total_trades_sent =
      (s.trade_data.map (fun q => q.2.trades.length)).sum ∧
    (∀ x, x ∈ all_trade_ids s.trade_data ↔ SentTradeId s x) ∧
    (all_trade_ids s.trade_data).Nodup ∧
    (reconcile_all s ts).1.summary.total_acknowledgments =
      (s.ack_data.map (fun q =>
        (q.2.acknowledgments.filter (fun a => a.status = "ACK")).length)).sum ∧
    (reconcile_all s ts).1.summary.total_nacknowledgments =
      (s.ack_data.map (fun q =>
        (q.2.acknowledgments.filter (fun a => a.status = "NACK")).length)).sum ∧
    (reconcile_all c4DupStore ts).1.summary.total_acknowledgments = 2 ∧
    (acknowledged_trades c4DupStore.ack_data).length = 1 := by
  refine ⟨total_trades_sent_eq s.trade_data, ?_, nodup_all_trade_ids s.trade_data,
    total_acks_eq s.ack_data, total_nacks_eq s.ack_data, rfl, rfl⟩
  intro x
  rw [mem_all_trade_ids]
  unfold SentTradeId
  constructor
  · rintro ⟨q, hq, t, ht, htx, hxe⟩
    exact ⟨hxe, q, hq, t, ht, htx⟩
  · rintro ⟨hxe, q, hq, t, ht, htx⟩
    exact ⟨q, hq, t, ht, htx, hxe⟩

/-- C5: `add_file_data` never raises (it is a total function); a record with
a parse error or an unrecognized kind leaves all three mappings unchanged;
otherwise the record is inserted into exactly the mapping matching its kind,
keyed by its file path, the other mappings untouched. -/
theorem add_file_data_routes_by_kind (s : Store) (p : ParsedData) :
    ((p.hasError = true ∨ p.file_type ∉ recognizedKinds) → add_file_data s p = s) ∧
    (p.hasError = false → p.file_type = "trade_extract" →
      add_file_data s p = { s with trade_data := dictInsert s.trade_data p.file_path p }) ∧
    (p.hasError = false → p.file_type = "acknowledgment" →
      add_file_data s p = { s with ack_data := dictInsert s.ack_data p.file_path p }) ∧
    (p.hasError = false → (p.file_type = "transform_failure" ∨ p.file_type = "ore_error") →
      add_file_data s p = { s with error_data := dictInsert s.error_data p.file_path p }) := by
  refine ⟨?_, ?_, ?_, ?_⟩
  · rintro (he | hk)
    · simp [add_file_data, he]
    · simp only [recognizedKinds, List.mem_cons, List.not_mem_nil, or_false, not_or] at hk
      obtain ⟨h1, h2, h3, h4⟩ := hk
      by_cases he : p.hasError <;> simp [add_file_data, he, h1, h2, h3, h4]
  · intro he ht
    simp [add_file_data, he, ht]
  · intro he ht
    have hne : p.file_type ≠ "trade_extract" := by
      rw [ht]
      decide
    simp [add_file_data, he, ht, hne]
  · intro he ht
    rcases ht with ht | ht <;>
      simp [add_file_data, he, ht]

/-- A trade-extract record carrying a parse error. -/
def c5ErrRec : ParsedData :=
  { file_type := "trade_extract", file_path := "bad.csv", hasError := true,
    trades := [], acknowledgments := [], errors := [], ore_errors := [] }

/-- An error-free one-row trade extract for the routing witness. -/
def c5TradeRec : ParsedData := mkTradeRec ("good.csv") ["T1"]

/-- C5 witness: the routing theorem at concrete records — an errored record
leaves the empty store unchanged, and a clean trade extract is inserted into
the trade mapping. -/
theorem add_file_data_routes_by_kind_witness :
    add_file_data emptyStore c5ErrRec = emptyStore ∧
    add_file_data emptyStore c5TradeRec =
      { emptyStore with trade_data := dictInsert emptyStore.trade_data c5TradeRec.file_path c5TradeRec } :=
  ⟨(add_file_data_routes_by_kind emptyStore c5ErrRec).1 (Or.inl rfl),
    (add_file_data_routes_by_kind emptyStore c5TradeRec).2.1 rfl rfl⟩

/-- C6: re-ingesting a record under an already-present source path of the
same kind overwrites the prior entry, so a subsequent reconciliation sees
only the latest ingestion for that source. -/
theorem reingest_same_source_overwrites (s : Store) (p1 p2 : ParsedData) (ts : String)
    (hpath : p1.file_path = p2.file_path) (htype : p1.file_type = p2.file_type)
    (he2 : p2.hasError = false) :
    add_file_data (add_file_data s p1) p2 = add_file_data s p2 ∧
    (reconcile_all (add_file_data (add_file_data s p1) p2) ts).1 =
      (reconcile_all (add_file_data s p2) ts).1 := by
  have hmain : add_file_data (add_file_data s p1) p2 = add_file_data s p2 := by
    by_cases he1 : p1.hasError
    · simp [add_file_data, he1]
    · by_cases ht : p1.file_type = "trade_extract"
      · have ht2 : p2.file_type = "trade_extract" := htype.symm.trans ht
        simp [add_file_data, he1, he2, ht, ht2, hpath, dictInsert_dictInsert]
      · by_cases ha : p1.file_type = "acknowledgment"
        · have ha2 : p2.file_type = "acknowledgment" := htype.symm.trans ha
          have hta2 : p2.file_type ≠ "trade_extract" := by
            rw [ha2]
            decide
          simp [add_file_data, he1, he2, ht, ha, ha2, hta2, hpath, dictInsert_dictInsert]
        · by_cases hg : p1.file_type = "transform_failure" ∨ p1.file_type = "ore_error"
          · have hg2 : p2.file_type = "transform_failure" ∨ p2.file_type = "ore_error" := by
              rw [← htype]
              exact hg
            have hta2 : p2.file_type ≠ "trade_extract" := by
              rcases hg2 with h | h <;> rw [h] <;> decide
            have haa2 : p2.file_type ≠ "acknowledgment" := by
              rcases hg2 with h | h <;> rw [h] <;> decide
            simp [add_file_data, he1, he2, ht, ha, hg, hg2, hta2, haa2, hpath,
              dictInsert_dictInsert]
          · have hg2 : ¬ (p2.file_type = "transform_failure" ∨ p2.file_type = "ore_error") := by
              rw [← htype]
              exact hg
            have hta2 : p2.file_type ≠ "trade_extract" := by
              rw [← htype]
              exact ht
            have haa2 : p2.file_type ≠ "acknowledgment" := by
              rw [← htype]
              exact ha
            simp [add_file_data, he1, he2, ht, ha, hg, hg2, hta2, haa2]
  exact ⟨hmain, by rw [hmain]⟩

/-- C6 witness: overwriting a one-row trade extract under the same path with
a different one-row extract equals ingesting only the second. -/
theorem reingest_same_source_overwrites_witness :
    add_file_data (add_file_data emptyStore (mkTradeRec ("f1.csv") ["T1"]))
        (mkTradeRec ("f1.csv") ["T2"]) =
      add_file_data emptyStore (mkTradeRec ("f1.csv") ["T2"]) ∧
    (reconcile_all (add_file_data (add_file_data emptyStore (mkTradeRec ("f1.csv") ["T1"]))
        (mkTradeRec ("f1.csv") ["T2"])) ts0).1 =
      (reconcile_all (add_file_data emptyStore (mkTradeRec ("f1.csv") ["T2"])) ts0).1 :=
  reingest_same_source_overwrites emptyStore (mkTradeRec ("f1.csv") ["T1"])
    (mkTradeRec ("f1.csv") ["T2"]) ts0 rfl rfl rfl

/-- An acknowledgment entry whose status is neither ACK nor NACK passes
through the per-entry loop body without touching either set. -/
lemma ackStep_other (st : List String × List String) (a : Ack)
    (ha : a.status ≠ "ACK") (hn : a.status ≠ "NACK") : ackStep st a = st := by
  unfold ackStep
  by_cases hid : a.tradeID ≠ ""
  · rw [if_pos hid, if_neg ha, if_neg hn]
  · rw [if_neg hid]

/-- The per-record rewrite `append_ack` performs on the ack mapping. -/
def appendAckEntry (k : String) (a : Ack) (q : String × ParsedData) : String × ParsedData :=
  if q.1 = k then (q.1, { q.2 with acknowledgments := q.2.acknowledgments ++ [a] }) else q

lemma append_ack_ack_data (s : Store) (k : String) (a : Ack) :
    (append_ack s k a).ack_data = s.ack_data.map (appendAckEntry k a) := rfl

lemma map_fst_appendAckEntry (ad : Dict ParsedData) (k : String) (a : Ack) :
    (ad.map (appendAckEntry k a)).map Prod.fst = ad.map Prod.fst := by
  rw [List.map_map]
  congr 1
  funext q
  by_cases hq : q.1 = k <;> simp [appendAckEntry, hq]

lemma total_acks_appendAckEntry (ad : Dict ParsedData) (k : String) (a : Ack)
    (ha : a.status ≠ "ACK") :
    total_acks (ad.map (appendAckEntry k a)) = total_acks ad := by
  rw [total_acks, total_acks, List.foldl_map]
  congr 1
  funext n q
  by_cases hq : q.1 = k
  · simp [appendAckEntry, hq, List.filter_append, ha]
  · simp [appendAckEntry, hq]

lemma total_nacks_appendAckEntry (ad : Dict ParsedData) (k : String) (a : Ack)
    (hn : a.status ≠ "NACK") :
    total_nacks (ad.map (appendAckEntry k a)) = total_nacks ad := by
  rw [total_nacks, total_nacks, List.foldl_map]
  congr 1
  funext n q
  by_cases hq : q.1 = k
  · simp [appendAckEntry, hq, List.filter_append, hn]
  · simp [appendAckEntry, hq]

lemma ack_nack_sets_appendAckEntry (ad : Dict ParsedData) (k : String) (a : Ack)
    (ha : a.status ≠ "ACK") (hn : a.status ≠ "NACK") :
    ack_nack_sets (ad.map (appendAckEntry k a)) = ack_nack_sets ad := by
  rw [ack_nack_sets, ack_nack_sets, List.foldl_map]
  congr 1
  funext st q
  by_cases hq : q.1 = k
  · simp [appendAckEntry, hq, List.foldl_append, ackStep_other _ a ha hn]
  · simp [appendAckEntry, hq]

/-- C10: an acknowledgment entry whose status is neither ACK nor NACK
contributes nothing — appending one to any stored acknowledgment record
leaves the whole report unchanged — and a sent trade all of whose
acknowledgment entries carry such statuses is reported among the missing
acknowledgments. -/
theorem other_status_entries_ignored (s : Store) (ts : String) (k : String) (a : Ack)
    (x : String) (ha : a.status ≠ "ACK") (hn : a.status ≠ "NACK") :
    (reconcile_all (append_ack s k a) ts).1 = (reconcile_all s ts).1 ∧
    (x ∈ all_trade_ids s.trade_data →
      (∀ q ∈ s.ack_data, ∀ e ∈ q.2.acknowledgments, e.tradeID = x →
        e.status ≠ "ACK" ∧ e.status ≠ "NACK") →
      ∃ d ∈ (reconcile_all s ts).1.discrepancies,
        d.type = "missing_acknowledgments" ∧ x ∈ d.trade_ids) := by
  constructor
  · have htrade : (append_ack s k a).trade_data = s.trade_data := rfl
    have herr : (append_ack s k a).error_data = s.error_data := rfl
    have hfiles : (append_ack s k a).ack_data.map Prod.fst = s.ack_data.map Prod.fst := by
      rw [append_ack_ack_data]
      exact map_fst_appendAckEntry s.ack_data k a
    have hta : total_acks (append_ack s k a).ack_data = total_acks s.ack_data := by
      rw [append_ack_ack_data]
      exact total_acks_appendAckEntry s.ack_data k a ha
    have htn : total_nacks (append_ack s k a).ack_data = total_nacks s.ack_data := by
      rw [append_ack_ack_data]
      exact total_nacks_appendAckEntry s.ack_data k a hn
    have hsets : ack_nack_sets (append_ack s k a).ack_data = ack_nack_sets s.ack_data := by
      rw [append_ack_ack_data]
      exact ack_nack_sets_appendAckEntry s.ack_data k a ha hn
    show reconcile_report (append_ack s k a) ts = reconcile_report s ts
    simp only [reconcile_report, missing_acks, unexpected_acks, acknowledged_trades,
      nacked_trades, htrade, herr, hfiles, hta, htn, hsets]
  · intro hx hno
    have hxm : x ∈ missing_acks s := by
      rw [missing_acks, mem_setDiff, mem_setDiff]
      refine ⟨⟨hx, ?_⟩, ?_⟩
      · intro hacked
        rw [mem_acknowledged_trades] at hacked
        obtain ⟨q, hq, e, he, hex, -, hes⟩ := hacked
        exact (hno q hq e he hex).1 hes
      · intro hnacked
        rw [mem_nacked_trades] at hnacked
        obtain ⟨q, hq, e, he, hex, -, hes⟩ := hnacked
        exact (hno q hq e he hex).2 hes
    have hm : missing_acks s ≠ [] := by
      intro h0
      rw [h0] at hxm
      exact List.not_mem_nil x hxm
    refine ⟨{ type := "missing_acknowledgments", trade_ids := missing_acks s,
              count := (missing_acks s).length }, ?_, rfl, hxm⟩
    rw [discrepancies_eq, if_pos hm]
    exact List.mem_append_left _ (List.mem_singleton_self _)

/-- A store with one sent trade and one acknowledgment file whose only entry
for that trade has a non-ACK, non-NACK status. -/
def c10Store : Store :=
  add_file_data (add_file_data emptyStore (mkTradeRec ("f1.csv") ["T1"]))
    (mkAckRec ("a1.csv") [{ tradeID := "T1", status := "PENDING" }])

/-- C10 witness: appending a WEIRD-status entry to the stored ack file of
`c10Store` leaves the report unchanged, and T1 is reported missing. -/
theorem other_status_entries_ignored_witness :
    (reconcile_all (append_ack c10Store ("a1.csv") { tradeID := "T9", status := "WEIRD" }) ts0).1 =
      (reconcile_all c10Store ts0).1 ∧
    ∃ d ∈ (reconcile_all c10Store ts0).1.discrepancies,
      d.type = "missing_acknowledgments" ∧ "T1" ∈ d.trade_ids :=
  ⟨(other_status_entries_ignored c10Store ts0 ("a1.csv")
      { tradeID := "T9", status := "WEIRD" } ("T1") (by decide) (by decide)).1,
    (other_status_entries_ignored c10Store ts0 ("a1.csv")
      { tradeID := "T9", status := "WEIRD" } ("T1") (by decide) (by decide)).2
      (by decide) (by decide)⟩
